import Mathlib

/-!
Shallow embedding of the mode/input-dispatch core of qutebrowser
(`qutebrowser/keyinput/modes.py`): the `ModeManager` state (handler registry,
passthrough list, mode stack, pending-release list, forward-unbound-keys
flag), the operations `register`, `enter`, `leave`, `leave_current_mode`,
`on_config_changed` and the event filter `eventFilter`, together with
theorems about them.
-/

/-- Qt event type tags as seen by the dispatcher: `QEvent.KeyPress`,
`QEvent.KeyRelease`, and every other event category. -/
inductive EventType where
  | keyPress
  | keyRelease
  | other
deriving DecidableEq, Repr

/-- A key event as delivered to `ModeManager.eventFilter`: its Qt event type
(`evt.type()`) and an opaque identity `key` standing for the event payload.
The source stores forwarded press events in `_releaseevents_to_pass` and asks
`evt in self._releaseevents_to_pass` for a release; the Qt-level `==` used
there is modelled as equality of the identity `key`, so a release event
compares equal to its originating press event (the "matching release" of the
module's comment), and the pending list stores the identities. -/
structure KeyEvent where
  typ : EventType
  key : Nat
deriving DecidableEq, Repr

/-- A key-press handler registered for a mode: called with the event, returns
whether the key was handled (`handler(evt)` in the source). -/
def KeyHandler : Type := KeyEvent → Bool

/-- Lookup in a Python-dict modelled as an association list
(`d[k]` / `k in d`). -/
def dictLookup {β : Type} (d : List (String × β)) (k : String) : Option β :=
  match d with
  | [] => none
  | (k', v') :: rest => if k' = k then some v' else dictLookup rest k

/-- Assignment `d[k] = v` in a Python dict modelled as an association list:
replace the binding of `k` when present, append otherwise. -/
def dictInsert {β : Type} (d : List (String × β)) (k : String) (v : β) :
    List (String × β) :=
  match d with
  | [] => [(k, v)]
  | (k', v') :: rest =>
      if k' = k then (k, v) :: rest else (k', v') :: dictInsert rest k v

/-- Python's `list.remove(x)`: remove the first occurrence of `x`, or signal
`ValueError` (`none`) when `x` is absent. -/
def listRemove (s : List String) (x : String) : Option (List String) :=
  match s with
  | [] => none
  | y :: ys => if y = x then some ys else (listRemove ys x).map (y :: ·)

/-- The errors the mode manager raises (`ValueError` with three distinct
messages in the source; the spec names them `UnknownModeError`,
`ModeNotActiveError` and `CannotLeaveNormalError`). -/
inductive ModeError where
  | unknownMode (mode : String)
  | modeNotActive (mode : String)
  | cannotLeaveNormal
deriving DecidableEq, Repr

/-- The state of a `ModeManager`:
`handlers` is the `_handlers` dict (a mode without a bound handler maps to
`none`, Python's `None`); `passthrough` is the `passthrough` list;
`mode_stack` is `_mode_stack` with the active mode on the right;
`releaseevents_to_pass` holds the identities of forwarded press events;
`forward_unbound_keys` mirrors the config value. -/
structure ModeManager where
  handlers : List (String × Option KeyHandler)
  passthrough : List String
  mode_stack : List String
  releaseevents_to_pass : List Nat
  forward_unbound_keys : Bool

/-- `ModeManager.__init__`: empty registry, empty passthrough list, empty
stack, empty pending-release list; `forward_unbound_keys` is read from the
config, passed here as a parameter. -/
def ModeManager.initial (forward_unbound_keys : Bool) : ModeManager :=
  { handlers := []
    passthrough := []
    mode_stack := []
    releaseevents_to_pass := []
    forward_unbound_keys := forward_unbound_keys }

/-- The read-only `mode` property: the last element of the mode stack, or
`none` (Python `None`) when the stack is empty. -/
def ModeManager.mode (m : ModeManager) : Option String :=
  m.mode_stack.getLast?

/-- `ModeManager.register(mode, handler, passthrough=False)`: store the
handler under the mode name; when `passthrough` is set, append the mode to
the passthrough list. -/
def ModeManager.register (m : ModeManager) (mode : String)
    (handler : Option KeyHandler) (passthrough : Bool) : ModeManager :=
  { m with
    handlers := dictInsert m.handlers mode handler
    passthrough :=
      if passthrough then m.passthrough ++ [mode] else m.passthrough }

/-- `ModeManager.enter(mode)`: raise when the mode has no registry entry;
do nothing when the mode is already at the top of the stack; otherwise push
it and emit `entered` with the mode name.  The result pairs the new state
with the emitted `entered` argument (`none` when nothing was emitted). -/
def ModeManager.enter (m : ModeManager) (mode : String) :
    Except ModeError (ModeManager × Option String) :=
  if (dictLookup m.handlers mode).isNone then
    .error (.unknownMode mode)
  else if m.mode_stack.getLast? = some mode then
    .ok (m, none)
  else
    .ok ({ m with mode_stack := m.mode_stack ++ [mode] }, some mode)

/-- `ModeManager.leave(mode)`: remove the first occurrence of the mode from
the stack (raising when absent, as `list.remove` does) and emit `left` with
the mode name.  The result pairs the new state with the emitted argument. -/
def ModeManager.leave (m : ModeManager) (mode : String) :
    Except ModeError (ModeManager × String) :=
  match listRemove m.mode_stack mode with
  | none => .error (.modeNotActive mode)
  | some st => .ok ({ m with mode_stack := st }, mode)

/-- `ModeManager.leave_current_mode()`: raise when the current mode is
"normal", otherwise `leave(self.mode)`.  When the stack is empty the source
calls `leave(None)`, whose `list.remove` raises the not-on-stack
`ValueError`; that case is modelled with the string "None". -/
def ModeManager.leave_current_mode (m : ModeManager) :
    Except ModeError (ModeManager × String) :=
  if m.mode = some "normal" then
    .error .cannotLeaveNormal
  else
    match m.mode with
    | some md => m.leave md
    | none => .error (.modeNotActive "None")

/-- `ModeManager.on_config_changed(section, option)`: refresh the cached
`forward_unbound_keys` value (to `newVal`, the current config value) when the
changed option is `('general', 'forward_unbound_keys')`. -/
def ModeManager.on_config_changed (m : ModeManager)
    (sec : String) (opt : String) (newVal : Bool) : ModeManager :=
  if sec = "general" ∧ opt = "forward_unbound_keys" then
    { m with forward_unbound_keys := newVal }
  else
    m

/-- The handler invocation of the press branch:
`handled = handler(evt) if handler is not None else False`. -/
def handledOf (handler : Option KeyHandler) (evt : KeyEvent) : Bool :=
  match handler with
  | some h => h evt
  | none => false

/-- The `filter_this` computation of the key-press branch of `eventFilter`:
`True` when handled; `False` when the current mode is in the passthrough list
or unbound keys are forwarded globally; `True` otherwise. -/
def ModeManager.pressFilter (m : ModeManager) (cur : String)
    (handled : Bool) : Bool :=
  if handled then true
  else if cur ∈ m.passthrough ∨ m.forward_unbound_keys then false
  else true

/-- `ModeManager.eventFilter(obj, evt)`: the per-event dispatch decision.
`objIsWindow` models `isinstance(obj, QWindow)`.  Returns the new state and
the filter decision (`true` = consume, `false` = forward), or `none` for the
`KeyError` the source raises when the current mode has no registry entry
(`self._handlers[self.mode]`).  On a forwarded press the event is appended to
`releaseevents_to_pass`. -/
def ModeManager.eventFilter (m : ModeManager) (objIsWindow : Bool)
    (evt : KeyEvent) : Option (ModeManager × Bool) :=
  match m.mode with
  | none => some (m, false)
  | some cur =>
    if evt.typ = .other then
      some (m, false)
    else if ¬ objIsWindow then
      some (m, false)
    else
      match dictLookup m.handlers cur with
      | none => none
      | some handler =>
        if evt.typ = .keyPress then
          if m.pressFilter cur (handledOf handler evt) then
            some (m, true)
          else
            some ({ m with
                    releaseevents_to_pass :=
                      m.releaseevents_to_pass ++ [evt.key] },
                  false)
        else
          if evt.key ∈ m.releaseevents_to_pass then
            some ({ m with
                    releaseevents_to_pass :=
                      m.releaseevents_to_pass.filter (fun e => e != evt.key) },
                  false)
          else
            some (m, true)

/-- Dispatch a sequence of events through the filter, threading the state and
collecting the filter decisions; `none` as soon as one dispatch raises. -/
def runEvents (m : ModeManager) :
    List (Bool × KeyEvent) → Option (ModeManager × List Bool)
  | [] => some (m, [])
  | (obj, evt) :: rest =>
    match m.eventFilter obj evt with
    | none => none
    | some (m', c) => (runEvents m' rest).map (fun p => (p.1, c :: p.2))

/-- The states reachable from a freshly constructed `ModeManager` through its
public operations. -/
inductive Reachable : ModeManager → Prop where
  | initial (fwd : Bool) : Reachable (ModeManager.initial fwd)
  | register (m : ModeManager) (mode : String) (handler : Option KeyHandler)
      (p : Bool) : Reachable m → Reachable (m.register mode handler p)
  | enter (m : ModeManager) (mode : String) (m' : ModeManager)
      (e : Option String) : Reachable m → m.enter mode = .ok (m', e) →
      Reachable m'
  | leave (m : ModeManager) (mode : String) (m' : ModeManager) (e : String) :
      Reachable m → m.leave mode = .ok (m', e) → Reachable m'
  | leave_current (m : ModeManager) (m' : ModeManager) (e : String) :
      Reachable m → m.leave_current_mode = .ok (m', e) → Reachable m'
  | config (m : ModeManager) (s o : String) (v : Bool) :
      Reachable m → Reachable (m.on_config_changed s o v)
  | event (m : ModeManager) (obj : Bool) (evt : KeyEvent) (m' : ModeManager)
      (c : Bool) : Reachable m → m.eventFilter obj evt = some (m', c) →
      Reachable m'

/-- A concrete manager for concrete evaluations: "normal" registered with a
handler that handles nothing, currently in "normal", no passthrough modes,
global forwarding off. -/
def mgrNormal : ModeManager :=
  { handlers := [("normal", some (fun _ => false))]
    passthrough := []
    mode_stack := ["normal"]
    releaseevents_to_pass := []
    forward_unbound_keys := false }

/-- A concrete manager currently in a passthrough mode "insert", whose
handler is the parameter; global forwarding off. -/
def mgrPassThru (h : KeyHandler) : ModeManager :=
  { handlers := [("insert", some h)]
    passthrough := ["insert"]
    mode_stack := ["insert"]
    releaseevents_to_pass := []
    forward_unbound_keys := false }

/-- The manager obtained by registering "insert" twice from a fresh state:
first with `passthrough=True`, then with `passthrough=False`. -/
def mgrReReg : ModeManager :=
  ((ModeManager.initial false).register "insert" (some (fun _ => false)) true).register
    "insert" (some (fun _ => false)) false

/-! ### Helper lemmas -/

theorem dictLookup_dictInsert_self {β : Type} (d : List (String × β))
    (k : String) (v : β) : dictLookup (dictInsert d k v) k = some v := by
  induction d with
  | nil => simp [dictInsert, dictLookup]
  | cons p rest ih =>
    obtain ⟨k', v'⟩ := p
    by_cases h : k' = k
    · simp [dictInsert, dictLookup, h]
    · simp [dictInsert, dictLookup, h, ih]

theorem dictLookup_dictInsert_ne {β : Type} (d : List (String × β))
    (k k2 : String) (v : β) (h : k2 ≠ k) :
    dictLookup (dictInsert d k v) k2 = dictLookup d k2 := by
  induction d with
  | nil => simp [dictInsert, dictLookup, Ne.symm h]
  | cons p rest ih =>
    obtain ⟨k', v'⟩ := p
    by_cases hk : k' = k
    · subst hk
      simp [dictInsert, dictLookup, Ne.symm h]
    · simp [dictInsert, dictLookup, hk, ih]

theorem dictLookup_isSome_dictInsert {β : Type} (d : List (String × β))
    (k k2 : String) (v : β) (h : (dictLookup d k2).isSome) :
    (dictLookup (dictInsert d k v) k2).isSome := by
  by_cases hk : k2 = k
  · subst hk
    simp [dictLookup_dictInsert_self]
  · rwa [dictLookup_dictInsert_ne d k k2 v hk]

theorem listRemove_eq_none (s : List String) (x : String) :
    listRemove s x = none ↔ x ∉ s := by
  induction s with
  | nil => simp [listRemove]
  | cons y ys ih =>
    by_cases h : y = x
    · simp [listRemove, h]
    · simp [listRemove, h, Option.map_eq_none', ih, Ne.symm h]

theorem listRemove_eq_some (s : List String) (x : String) (t : List String)
    (h : listRemove s x = some t) :
    ∃ pre post, s = pre ++ x :: post ∧ x ∉ pre ∧ t = pre ++ post := by
  induction s generalizing t with
  | nil => simp [listRemove] at h
  | cons y ys ih =>
    by_cases hy : y = x
    · subst hy
      simp [listRemove] at h
      exact ⟨[], ys, rfl, by simp, h.symm⟩
    · simp [listRemove, hy, Option.map_eq_some'] at h
      obtain ⟨t', ht', rfl⟩ := h
      obtain ⟨pre, post, hs, hpre, hts⟩ := ih t' ht'
      exact ⟨y :: pre, post, by simp [hs], by simp [hpre, Ne.symm hy],
        by simp [hts]⟩

theorem getLast?_push {α : Type} (s : List α) (x : α) :
    (s ++ [x]).getLast? = some x := by
  rw [List.getLast?_append_cons]
  rfl

/-- `pressFilter` as a boolean formula: consume exactly when handled or
neither the mode-level passthrough escape nor the global forward escape
applies. -/
theorem pressFilter_eq (m : ModeManager) (cur : String) (handled : Bool) :
    m.pressFilter cur handled =
      (handled || !(decide (cur ∈ m.passthrough) || m.forward_unbound_keys)) := by
  unfold ModeManager.pressFilter
  by_cases hp : cur ∈ m.passthrough <;> cases handled <;>
    cases hfwd : m.forward_unbound_keys <;> simp [hp, hfwd]

/-- Unfolding of `eventFilter` on a key press delivered from the capture
target while `cur` is the current mode with registry entry `handler`. -/
theorem eventFilter_press (m : ModeManager) (cur : String)
    (handler : Option KeyHandler) (evt : KeyEvent)
    (hm : m.mode = some cur) (hh : dictLookup m.handlers cur = some handler)
    (hp : evt.typ = .keyPress) :
    m.eventFilter true evt =
      if m.pressFilter cur (handledOf handler evt) then some (m, true)
      else some ({ m with releaseevents_to_pass :=
                    m.releaseevents_to_pass ++ [evt.key] }, false) := by
  unfold ModeManager.eventFilter
  rw [hm]
  simp [hp, hh]

/-- Unfolding of `eventFilter` on a key release delivered from the capture
target while `cur` is the current mode with registry entry `handler`. -/
theorem eventFilter_release (m : ModeManager) (cur : String)
    (handler : Option KeyHandler) (evt : KeyEvent)
    (hm : m.mode = some cur) (hh : dictLookup m.handlers cur = some handler)
    (hr : evt.typ = .keyRelease) :
    m.eventFilter true evt =
      if evt.key ∈ m.releaseevents_to_pass then
        some ({ m with releaseevents_to_pass :=
                  m.releaseevents_to_pass.filter (fun e => e != evt.key) },
              false)
      else some (m, true) := by
  unfold ModeManager.eventFilter
  rw [hm]
  simp [hr, hh]

/-! ### Claim theorems -/

/-- C1: for every key press dispatched while a mode is active, from the
capture target, the consume decision equals
`handled OR NOT (mode in passthrough set OR forward-unbound-keys)`, where
`handled` is the handler's return value (`false` when no handler bound). -/
theorem press_consume_decision (m : ModeManager) (cur : String)
    (handler : Option KeyHandler) (evt : KeyEvent)
    (hm : m.mode = some cur) (hh : dictLookup m.handlers cur = some handler)
    (hp : evt.typ = .keyPress) :
    ∃ m', m.eventFilter true evt =
      some (m', handledOf handler evt ||
        !(decide (cur ∈ m.passthrough) || m.forward_unbound_keys)) := by
  rw [eventFilter_press m cur handler evt hm hh hp, ← pressFilter_eq]
  by_cases hf : m.pressFilter cur (handledOf handler evt) = true
  · exact ⟨m, by rw [if_pos hf, hf]⟩
  · rw [Bool.not_eq_true] at hf
    exact ⟨_, by rw [if_neg (by simp [hf]), hf]⟩

/-- Witness for C1 at a concrete input: in `mgrNormal` (handler handles
nothing, no escapes) a key press is consumed. -/
theorem press_consume_decision_witness :
    ∃ m', mgrNormal.eventFilter true ⟨.keyPress, 5⟩ = some (m', true) := by
  have h := press_consume_decision mgrNormal "normal" (some (fun _ => false))
    ⟨.keyPress, 5⟩ (by rfl) (by simp [mgrNormal, dictLookup]) rfl
  simpa [mgrNormal, handledOf] using h

/-- C9: an event delivered while the mode stack is empty is forwarded
unconditionally and the state is unchanged. -/
theorem eventFilter_empty_stack_forwards (m : ModeManager) (obj : Bool)
    (evt : KeyEvent) (h : m.mode_stack = []) :
    m.eventFilter obj evt = some (m, false) := by
  unfold ModeManager.eventFilter
  have hm : m.mode = none := by simp [ModeManager.mode, h]
  rw [hm]

/-- Witness for C9 at a concrete input: the freshly constructed manager
forwards a key press unchanged. -/
theorem eventFilter_empty_stack_forwards_witness :
    (ModeManager.initial false).eventFilter true ⟨.keyPress, 0⟩ =
      some (ModeManager.initial false, false) :=
  eventFilter_empty_stack_forwards (ModeManager.initial false) true
    ⟨.keyPress, 0⟩ rfl

/-- C3 (counterexample): in the passthrough mode "insert" (forwarding off)
the dispatch decision does depend on the handler's return value: a handler
returning `True` makes the press consumed, a handler returning `False` makes
it forwarded — refuting the claim that handled-or-not is irrelevant to the
decision in a passthrough mode. -/
theorem passthrough_handled_matters :
    ((mgrPassThru (fun _ => true)).eventFilter true ⟨.keyPress, 0⟩).map
        Prod.snd = some true ∧
    ((mgrPassThru (fun _ => false)).eventFilter true ⟨.keyPress, 0⟩).map
        Prod.snd = some false := by
  constructor <;> rfl

/-- C3 (amended): in a passthrough mode the press consume decision equals
exactly the handler's `handled` result: a handled press is consumed, an
unhandled press is forwarded. -/
theorem passthrough_consume_eq_handled (m : ModeManager) (cur : String)
    (handler : Option KeyHandler) (evt : KeyEvent)
    (hm : m.mode = some cur) (hh : dictLookup m.handlers cur = some handler)
    (hp : evt.typ = .keyPress) (hpass : cur ∈ m.passthrough) :
    ∃ m', m.eventFilter true evt = some (m', handledOf handler evt) := by
  rw [eventFilter_press m cur handler evt hm hh hp]
  have hf : m.pressFilter cur (handledOf handler evt) = handledOf handler evt := by
    unfold ModeManager.pressFilter
    cases handledOf handler evt <;> simp [hpass]
  rw [hf]
  cases hval : handledOf handler evt
  · exact ⟨_, by rw [if_neg (by simp)]⟩
  · exact ⟨m, by rw [if_pos rfl]⟩

/-- Witness for the amended C3 at a concrete input: with an
everything-handling handler the passthrough-mode press is consumed. -/
theorem passthrough_consume_eq_handled_witness :
    ∃ m', (mgrPassThru (fun _ => true)).eventFilter true ⟨.keyPress, 7⟩ =
      some (m', true) := by
  have h := passthrough_consume_eq_handled (mgrPassThru (fun _ => true))
    "insert" (some (fun _ => true)) ⟨.keyPress, 7⟩ (by rfl)
    (by simp [mgrPassThru, dictLookup]) rfl (by simp [mgrPassThru])
  simpa [handledOf] using h

/-- C4 (counterexample): registering "insert" first with `passthrough=True`
and then again with `passthrough=False` does not make the second passthrough
flag win: after entering "insert", the mode is still in the passthrough list
and an unhandled press is forwarded (decision `false`), although the claim's
last-write-wins reading (with `p2 = False`, forwarding off) requires it to be
consumed. -/
theorem reregister_passthrough_sticky :
    ∃ m, mgrReReg.enter "insert" = .ok (m, some "insert") ∧
      "insert" ∈ m.passthrough ∧
      (m.eventFilter true ⟨.keyPress, 0⟩).map Prod.snd = some false := by
  refine ⟨{ mgrReReg with mode_stack := ["insert"] }, by rfl, by
    simp [mgrReReg, ModeManager.register, ModeManager.initial, dictInsert],
    by rfl⟩

/-- C4 (amended): re-registration overwrites the handler (last write wins),
but the passthrough list is additive: after the two registrations the mode is
treated as passthrough iff some registration passed `passthrough=True` or the
mode was in the passthrough list before. -/
theorem reregister_handler_last_write_passthrough_additive
    (m : ModeManager) (mode : String) (h1 h2 : Option KeyHandler)
    (p1 p2 : Bool) :
    dictLookup (((m.register mode h1 p1).register mode h2 p2).handlers) mode =
      some h2 ∧
    (mode ∈ ((m.register mode h1 p1).register mode h2 p2).passthrough ↔
      (p1 = true ∨ p2 = true ∨ mode ∈ m.passthrough)) := by
  constructor
  · show dictLookup (dictInsert (dictInsert m.handlers mode h1) mode h2) mode =
      some h2
    exact dictLookup_dictInsert_self _ _ _
  · cases p1 <;> cases p2 <;> simp [ModeManager.register]

/-- C8: entering the mode already at the top of the stack is a no-op (state
unchanged, no `entered` notification); entering any other registered mode
pushes it, the new current mode is that mode and the `entered` notification
carries it. -/
theorem enter_idempotent_top_or_push (m : ModeManager) (mode : String)
    (hreg : (dictLookup m.handlers mode).isSome) :
    (m.mode = some mode → m.enter mode = .ok (m, none)) ∧
    (m.mode ≠ some mode →
      m.enter mode =
        .ok ({ m with mode_stack := m.mode_stack ++ [mode] }, some mode) ∧
      ({ m with mode_stack := m.mode_stack ++ [mode] } : ModeManager).mode =
        some mode) := by
  obtain ⟨v, hv⟩ := Option.isSome_iff_exists.mp hreg
  constructor
  · intro hm
    rw [ModeManager.mode] at hm
    unfold ModeManager.enter
    rw [hv]
    simp [hm]
  · intro hm
    rw [ModeManager.mode] at hm
    refine ⟨?_, ?_⟩
    · unfold ModeManager.enter
      rw [hv]
      simp [hm]
    · rw [ModeManager.mode]
      exact getLast?_push _ _

/-- Witness for C8 at a concrete input: `mgrNormal` is already in "normal",
so entering "normal" again is a no-op. -/
theorem enter_idempotent_top_or_push_witness :
    mgrNormal.enter "normal" = .ok (mgrNormal, none) :=
  (enter_idempotent_top_or_push mgrNormal "normal"
    (by simp [mgrNormal, dictLookup])).1 rfl

/-- C6: leaving a mode absent from the stack fails with the mode-not-active
error (stack unchanged); leaving a present mode removes its first occurrence
and reports the left mode to observers. -/
theorem leave_removes_first_occurrence (m : ModeManager) (mode : String) :
    (mode ∉ m.mode_stack → m.leave mode = .error (.modeNotActive mode)) ∧
    (mode ∈ m.mode_stack →
      ∃ pre post, m.mode_stack = pre ++ mode :: post ∧ mode ∉ pre ∧
        m.leave mode = .ok ({ m with mode_stack := pre ++ post }, mode)) := by
  constructor
  · intro hnot
    unfold ModeManager.leave
    rw [(listRemove_eq_none _ _).mpr hnot]
  · intro hmem
    cases ht : listRemove m.mode_stack mode with
    | none => exact absurd ((listRemove_eq_none _ _).mp ht) (by simp [hmem])
    | some t =>
      obtain ⟨pre, post, hs, hpre, rfl⟩ := listRemove_eq_some _ _ _ ht
      refine ⟨pre, post, hs, hpre, ?_⟩
      unfold ModeManager.leave
      rw [ht]

/-- Witness for C6 at a concrete input: leaving "insert" in `mgrNormal`
(whose stack is `["normal"]`) fails with the mode-not-active error. -/
theorem leave_removes_first_occurrence_witness :
    mgrNormal.leave "insert" = .error (.modeNotActive "insert") :=
  (leave_removes_first_occurrence mgrNormal "insert").1 (by
    simp [mgrNormal])

/-- C7: `leave_current_mode` fails with the cannot-leave-normal error when
the current mode is "normal" (stack unchanged), and otherwise equals
`leave(current mode)`. -/
theorem leave_current_normal_guard (m : ModeManager) :
    (m.mode = some "normal" →
      m.leave_current_mode = .error .cannotLeaveNormal) ∧
    (∀ md, m.mode = some md → md ≠ "normal" →
      m.leave_current_mode = m.leave md) := by
  constructor
  · intro hm
    unfold ModeManager.leave_current_mode
    simp [hm]
  · intro md hm hne
    unfold ModeManager.leave_current_mode
    rw [hm]
    simp [hne]

/-- Witness for C7 at a concrete input: in `mgrNormal` the current mode is
"normal", so `leave_current_mode` fails with the cannot-leave-normal
error. -/
theorem leave_current_normal_guard_witness :
    mgrNormal.leave_current_mode = .error .cannotLeaveNormal :=
  (leave_current_normal_guard mgrNormal).1 rfl

/-- Frame property of `eventFilter`: a successful dispatch leaves every
component of the state unchanged except possibly the pending-release list,
which is either unchanged, extended with the event, or purged of all entries
equal to the event. -/
theorem eventFilter_state_frame (m : ModeManager) (obj : Bool)
    (evt : KeyEvent) (m' : ModeManager) (c : Bool)
    (h : m.eventFilter obj evt = some (m', c)) :
    m'.handlers = m.handlers ∧ m'.passthrough = m.passthrough ∧
    m'.mode_stack = m.mode_stack ∧
    m'.forward_unbound_keys = m.forward_unbound_keys ∧
    (m'.releaseevents_to_pass = m.releaseevents_to_pass ∨
     m'.releaseevents_to_pass = m.releaseevents_to_pass ++ [evt.key] ∨
     m'.releaseevents_to_pass =
       m.releaseevents_to_pass.filter (fun e => e != evt.key)) := by
  unfold ModeManager.eventFilter at h
  repeat' split at h
  all_goals first
    | exact Option.noConfusion h
    | (simp only [Option.some.injEq, Prod.mk.injEq] at h
       obtain ⟨rfl, rfl⟩ := h
       refine ⟨rfl, rfl, rfl, rfl, ?_⟩
       simp)

/-- C10: for every event, `eventFilter` leaves the mode stack, the handler
registry and the passthrough list (and the cached forward-unbound-keys flag)
unchanged; the only state it may mutate is the pending-release list —
appending the event on a forwarded press, or removing all equal entries on a
matching release. -/
theorem eventFilter_frame_condition (m : ModeManager) (obj : Bool)
    (evt : KeyEvent) (m' : ModeManager) (c : Bool)
    (h : m.eventFilter obj evt = some (m', c)) :
    m'.handlers = m.handlers ∧ m'.passthrough = m.passthrough ∧
    m'.mode_stack = m.mode_stack ∧
    m'.forward_unbound_keys = m.forward_unbound_keys ∧
    (m'.releaseevents_to_pass = m.releaseevents_to_pass ∨
     m'.releaseevents_to_pass = m.releaseevents_to_pass ++ [evt.key] ∨
     m'.releaseevents_to_pass =
       m.releaseevents_to_pass.filter (fun e => e != evt.key)) :=
  eventFilter_state_frame m obj evt m' c h

/-- Witness for C10 at a concrete input: dispatching a consumed press in
`mgrNormal` changes nothing. -/
theorem eventFilter_frame_condition_witness :
    mgrNormal.handlers = mgrNormal.handlers ∧
    mgrNormal.passthrough = mgrNormal.passthrough ∧
    mgrNormal.mode_stack = mgrNormal.mode_stack ∧
    mgrNormal.forward_unbound_keys = mgrNormal.forward_unbound_keys ∧
    (mgrNormal.releaseevents_to_pass = mgrNormal.releaseevents_to_pass ∨
     mgrNormal.releaseevents_to_pass =
       mgrNormal.releaseevents_to_pass ++ [(6 : Nat)] ∨
     mgrNormal.releaseevents_to_pass =
       mgrNormal.releaseevents_to_pass.filter (fun e => e != (6 : Nat))) :=
  eventFilter_frame_condition mgrNormal true ⟨.keyPress, 6⟩ mgrNormal true rfl

/-- Helper: dispatching, in an active mode with registered handler, a press
of a key not already pending followed by two identical releases gives
decisions `[d, d, true]`: the first release is forwarded exactly when the
press was forwarded (`d = false`), and the second identical release is
consumed. -/
theorem press_then_two_releases (m : ModeManager) (cur : String)
    (handler : Option KeyHandler) (k : Nat)
    (hm : m.mode = some cur) (hh : dictLookup m.handlers cur = some handler)
    (hnew : k ∉ m.releaseevents_to_pass) :
    ∃ m' d, runEvents m
      [(true, ⟨.keyPress, k⟩), (true, ⟨.keyRelease, k⟩),
       (true, ⟨.keyRelease, k⟩)] = some (m', [d, d, true]) := by
  by_cases hf : m.pressFilter cur (handledOf handler ⟨.keyPress, k⟩) = true
  · refine ⟨m, true, ?_⟩
    have h1 : m.eventFilter true ⟨.keyPress, k⟩ = some (m, true) := by
      rw [eventFilter_press m cur handler _ hm hh rfl, if_pos hf]
    have h2 : m.eventFilter true ⟨.keyRelease, k⟩ = some (m, true) := by
      rw [eventFilter_release m cur handler _ hm hh rfl, if_neg hnew]
    simp [runEvents, h1, h2]
  · have h1 : m.eventFilter true ⟨.keyPress, k⟩ =
        some ({ m with releaseevents_to_pass :=
                  m.releaseevents_to_pass ++ [k] }, false) := by
      rw [eventFilter_press m cur handler _ hm hh rfl, if_neg hf]
    have hm1 : ({ m with releaseevents_to_pass :=
        m.releaseevents_to_pass ++ [k] } : ModeManager).mode = some cur := hm
    have hh1 : dictLookup ({ m with releaseevents_to_pass :=
        m.releaseevents_to_pass ++ [k] } : ModeManager).handlers cur =
        some handler := hh
    have hk1 : k ∈ ({ m with releaseevents_to_pass :=
        m.releaseevents_to_pass ++ [k] } : ModeManager).releaseevents_to_pass := by
      simp
    have h2 : ({ m with releaseevents_to_pass :=
        m.releaseevents_to_pass ++ [k] } : ModeManager).eventFilter true
          ⟨.keyRelease, k⟩ =
        some ({ m with releaseevents_to_pass :=
                  (m.releaseevents_to_pass ++ [k]).filter (fun e => e != k) },
              false) := by
      rw [eventFilter_release _ cur handler _ hm1 hh1 rfl, if_pos hk1]
    have hk2 : k ∉ ({ m with releaseevents_to_pass :=
        (m.releaseevents_to_pass ++ [k]).filter (fun e => e != k) } :
          ModeManager).releaseevents_to_pass := by
      simp [List.mem_filter]
    have hm2 : ({ m with releaseevents_to_pass :=
        (m.releaseevents_to_pass ++ [k]).filter (fun e => e != k) } :
          ModeManager).mode = some cur := hm
    have hh2 : dictLookup ({ m with releaseevents_to_pass :=
        (m.releaseevents_to_pass ++ [k]).filter (fun e => e != k) } :
          ModeManager).handlers cur = some handler := hh
    have h3 : ({ m with releaseevents_to_pass :=
        (m.releaseevents_to_pass ++ [k]).filter (fun e => e != k) } :
          ModeManager).eventFilter true ⟨.keyRelease, k⟩ =
        some ({ m with releaseevents_to_pass :=
                  (m.releaseevents_to_pass ++ [k]).filter (fun e => e != k) },
              true) := by
      rw [eventFilter_release _ cur handler _ hm2 hh2 rfl, if_neg hk2]
    refine ⟨{ m with releaseevents_to_pass :=
        (m.releaseevents_to_pass ++ [k]).filter (fun e => e != k) }, false, ?_⟩
    simp only [runEvents, h1, h2, h3, Option.map_some']

/-- C2 (counterexample): the release-forwarded-iff-press-forwarded claim
fails under duplicate identical presses (e.g. key auto-repeat): in the
passthrough mode "insert" with a handler that handles nothing, the trace
press 0, press 0, release 0, release 0 yields decisions
`[false, false, false, true]` — both presses are forwarded, but the release
branch removes all matching pending entries at once, so only one matching
release is forwarded and the second release is consumed although its
originating press was forwarded. -/
theorem duplicate_press_single_release_forwarded :
    ∃ m', runEvents (mgrPassThru (fun _ => false))
      [(true, ⟨.keyPress, 0⟩), (true, ⟨.keyPress, 0⟩),
       (true, ⟨.keyRelease, 0⟩), (true, ⟨.keyRelease, 0⟩)] =
      some (m', [false, false, false, true]) :=
  ⟨{ mgrPassThru (fun _ => false) with releaseevents_to_pass := [] }, rfl⟩

/-- C2 (amended): a key-release dispatched in an active mode with a registry
entry is forwarded iff a matching forwarded press is pending; a forwarded
release removes all matching pending entries at once, so even after several
identical forwarded presses exactly one matching release is forwarded for
the whole batch; a release with no pending matching press is consumed with
the state unchanged; and once a press of a non-pending key is dispatched,
the next matching release gets the same decision as the press and a second
identical release — no new matching forwarded press in between — is
consumed. -/
theorem release_forwarded_iff_pending (m : ModeManager) (cur : String)
    (handler : Option KeyHandler) (k : Nat)
    (hm : m.mode = some cur) (hh : dictLookup m.handlers cur = some handler) :
    (k ∈ m.releaseevents_to_pass ↔
      (m.eventFilter true ⟨.keyRelease, k⟩).map Prod.snd = some false) ∧
    (k ∈ m.releaseevents_to_pass →
      m.eventFilter true ⟨.keyRelease, k⟩ =
        some ({ m with releaseevents_to_pass :=
          m.releaseevents_to_pass.filter (fun e => e != k) }, false)) ∧
    (k ∉ m.releaseevents_to_pass →
      m.eventFilter true ⟨.keyRelease, k⟩ = some (m, true)) ∧
    (k ∉ m.releaseevents_to_pass →
      ∃ m' d, runEvents m
        [(true, ⟨.keyPress, k⟩), (true, ⟨.keyRelease, k⟩),
         (true, ⟨.keyRelease, k⟩)] = some (m', [d, d, true])) := by
  have hrel := eventFilter_release m cur handler ⟨.keyRelease, k⟩ hm hh rfl
  refine ⟨⟨?_, ?_⟩, ?_, ?_, press_then_two_releases m cur handler k hm hh⟩
  · intro hk
    rw [hrel, if_pos hk]
    rfl
  · intro hfwd
    by_contra hk
    rw [hrel, if_neg hk] at hfwd
    simp at hfwd
  · intro hk
    rw [hrel, if_pos hk]
  · intro hk
    rw [hrel, if_neg hk]

/-- Witness for the amended C2 at a concrete input: `mgrNormal` has an empty
pending-release list, so a release of key 9 is consumed with the state
unchanged. -/
theorem release_forwarded_iff_pending_witness :
    mgrNormal.eventFilter true ⟨.keyRelease, 9⟩ = some (mgrNormal, true) :=
  (release_forwarded_iff_pending mgrNormal "normal" (some (fun _ => false)) 9
    (by rfl) (by simp [mgrNormal, dictLookup])).2.2.1 (by simp [mgrNormal])

/-- Inversion of a successful `enter`: the mode was registered, and the
result is either the unchanged state (already at top) or the push. -/
theorem enter_ok_cases (m : ModeManager) (mode : String) (m' : ModeManager)
    (e : Option String) (h : m.enter mode = .ok (m', e)) :
    (dictLookup m.handlers mode).isSome ∧
    (m' = m ∨ m' = { m with mode_stack := m.mode_stack ++ [mode] }) := by
  unfold ModeManager.enter at h
  split at h
  · exact Except.noConfusion h
  · rename_i hreg
    have hreg' : (dictLookup m.handlers mode).isSome := by
      cases hc : dictLookup m.handlers mode
      · rw [hc] at hreg
        simp at hreg
      · simp
    split at h <;>
      · simp only [Except.ok.injEq, Prod.mk.injEq] at h
        obtain ⟨rfl, rfl⟩ := h
        simp [hreg']

/-- A successful `leave` keeps the registry and only removes stack
entries. -/
theorem leave_ok_stack_subset (m : ModeManager) (mode : String)
    (m' : ModeManager) (e : String) (h : m.leave mode = .ok (m', e)) :
    m'.handlers = m.handlers ∧ ∀ md ∈ m'.mode_stack, md ∈ m.mode_stack := by
  unfold ModeManager.leave at h
  split at h
  · exact Except.noConfusion h
  · rename_i st ht
    simp only [Except.ok.injEq, Prod.mk.injEq] at h
    obtain ⟨rfl, rfl⟩ := h
    obtain ⟨pre, post, hs, hpre, rfl⟩ := listRemove_eq_some _ _ _ ht
    refine ⟨rfl, ?_⟩
    intro md hmd
    rw [hs]
    simp at hmd ⊢
    tauto

/-- A successful `leave_current_mode` is a successful `leave` of some
mode. -/
theorem leave_current_ok (m : ModeManager) (m' : ModeManager) (e : String)
    (h : m.leave_current_mode = .ok (m', e)) :
    ∃ md, m.leave md = .ok (m', e) := by
  unfold ModeManager.leave_current_mode at h
  split at h
  · exact Except.noConfusion h
  · split at h
    · exact ⟨_, h⟩
    · exact Except.noConfusion h

/-- `on_config_changed` touches neither the registry nor the stack. -/
theorem on_config_changed_frame (m : ModeManager) (so oo : String)
    (v : Bool) :
    (m.on_config_changed so oo v).handlers = m.handlers ∧
    (m.on_config_changed so oo v).mode_stack = m.mode_stack := by
  unfold ModeManager.on_config_changed
  split <;> exact ⟨rfl, rfl⟩

/-- Registry invariant: every mode on the stack of a reachable state has a
registry entry. -/
theorem reachable_stack_registered (s : ModeManager) (hs : Reachable s) :
    ∀ md ∈ s.mode_stack, (dictLookup s.handlers md).isSome := by
  induction hs with
  | initial fwd =>
    intro md hmd
    simp [ModeManager.initial] at hmd
  | register m mode handler p hr ih =>
    intro md hmd
    exact dictLookup_isSome_dictInsert _ _ _ _ (ih md hmd)
  | enter m mode m' e hr he ih =>
    obtain ⟨hreg, hcase⟩ := enter_ok_cases m mode m' e he
    cases hcase with
    | inl hcm =>
      subst hcm
      exact ih
    | inr hcm =>
      subst hcm
      intro md hmd
      simp only [List.mem_append, List.mem_singleton] at hmd
      cases hmd with
      | inl hmem => exact ih md hmem
      | inr heq =>
        subst heq
        exact hreg
  | leave m mode m' e hr hl ih =>
    obtain ⟨hh, hsub⟩ := leave_ok_stack_subset m mode m' e hl
    intro md hmd
    rw [hh]
    exact ih md (hsub md hmd)
  | leave_current m m' e hr hl ih =>
    obtain ⟨md0, hl'⟩ := leave_current_ok m m' e hl
    obtain ⟨hh, hsub⟩ := leave_ok_stack_subset m md0 m' e hl'
    intro md hmd
    rw [hh]
    exact ih md (hsub md hmd)
  | config m so oo v hr ih =>
    obtain ⟨hh, hst⟩ := on_config_changed_frame m so oo v
    intro md hmd
    rw [hh]
    exact ih md (by rwa [hst] at hmd)
  | event m obj evt m' c hr he ih =>
    obtain ⟨hh, _, hst, _, _⟩ := eventFilter_state_frame m obj evt m' c he
    intro md hmd
    rw [hh]
    exact ih md (by rwa [hst] at hmd)

/-- C5: entering a mode with no registry entry fails with the unknown-mode
error (the stack is untouched, nothing is emitted), and in every state
reachable through the manager's operations every mode on the stack has a
registry entry. -/
theorem enter_unregistered_fails_stack_registered (m : ModeManager)
    (mode : String) (h : dictLookup m.handlers mode = none) :
    m.enter mode = .error (.unknownMode mode) ∧
    ∀ s, Reachable s → ∀ md ∈ s.mode_stack,
      (dictLookup s.handlers md).isSome := by
  constructor
  · unfold ModeManager.enter
    simp [h]
  · exact fun s hs => reachable_stack_registered s hs

/-- Witness for C5 at a concrete input: "hint" is not registered in
`mgrNormal`, so entering it fails with the unknown-mode error. -/
theorem enter_unregistered_fails_stack_registered_witness :
    mgrNormal.enter "hint" = .error (.unknownMode "hint") :=
  (enter_unregistered_fails_stack_registered mgrNormal "hint"
    (by simp [mgrNormal, dictLookup])).1
